import Mathlib

/-
  Verification of the NinjaRupiah (Ninah) key-management and
  stealth-address subsystem, as a shallow embedding in Lean 4.

  JavaScript strings are represented as List Char, Uint8Array byte
  buffers as List Nat (each entry a byte value below 256), and the
  external collaborators of the key manager (IndexedDB storage, the
  AEAD, the wallet signer, argon2id, HKDF, keccak256) as explicit
  function-valued parameters, matching the boundary that section 1 of
  the specification declares out of scope.
-/

namespace Ninah

/-! ## Bytes: hex encoding and decoding (Bytes.bytesToHex, Bytes.hexToBytes) -/

/-- One lowercase hexadecimal digit, as produced by the JavaScript
expression b.toString(16) for a nibble value below 16. -/
def hexDigitChar (n : Nat) : Char :=
  if n < 10 then Char.ofNat (48 + n) else Char.ofNat (87 + n)

/-- The two-character lowercase encoding of one byte:
b.toString(16).padStart(2, the zero digit). For a byte value below 256
this is exactly the high nibble digit followed by the low nibble digit. -/
def byteToHex (b : Nat) : List Char :=
  [hexDigitChar (b / 16), hexDigitChar (b % 16)]

/-- Embeds Bytes.bytesToHex: each byte becomes two lowercase hex
characters, with an optional 0x prefix (default true). -/
def bytesToHex (bytes : List Nat) (pfx : Bool := true) : List Char :=
  (if pfx then ['0', 'x'] else []) ++ (bytes.map byteToHex).flatten

/-- The numeric value of a single hexadecimal character, or none for a
non-hex character. parseInt with radix 16 accepts both cases. -/
def hexDigitVal (c : Char) : Option Nat :=
  if 48 ≤ c.toNat ∧ c.toNat ≤ 57 then some (c.toNat - 48)
  else if 97 ≤ c.toNat ∧ c.toNat ≤ 102 then some (c.toNat - 87)
  else if 65 ≤ c.toNat ∧ c.toNat ≤ 70 then some (c.toNat - 55)
  else none

/-- JavaScript parseInt(s, 16) on a two-character slice: parses the
longest valid prefix of hex digits; an empty prefix yields NaN,
modelled as none. -/
def parseIntHex2 (c1 c2 : Char) : Option Nat :=
  match hexDigitVal c1 with
  | none => none
  | some d1 =>
    match hexDigitVal c2 with
    | some d2 => some (16 * d1 + d2)
    | none => some d1

/-- The byte-filling loop of Bytes.hexToBytes: each two-character slice
is parsed with parseInt(slice, 16) and stored into the Uint8Array; a
NaN parse is stored as 0 (the ToUint8 coercion of NaN). -/
def hexPairsToBytes : List Char → List Nat
  | c1 :: c2 :: rest => (parseIntHex2 c1 c2).getD 0 :: hexPairsToBytes rest
  | _ => []

/-- The prefix handling of Bytes.hexToBytes: hex.startsWith(0x) drops
the first two characters, anything else is kept whole. -/
def stripHexPrefix : List Char → List Char
  | '0' :: 'x' :: rest => rest
  | l => l

/-- Embeds Bytes.hexToBytes: strips a leading 0x, rejects odd-length
input, then decodes two characters per byte. -/
def hexToBytes (hex : List Char) : Except String (List Nat) :=
  let cleanHex := stripHexPrefix hex
  if cleanHex.length % 2 ≠ 0 then .error "Invalid hex string length"
  else .ok (hexPairsToBytes cleanHex)

/-! ## Kdf: argon2id password hashing (src/unnamed/part_000) -/

/-- Embeds the Argon2Config interface of the Kdf module. -/
structure Argon2Config where
  memoryCost : Nat
  timeCost : Nat
  parallelism : Nat
  hashLength : Nat
deriving DecidableEq

/-- Embeds DEFAULT_ARGON2_CONFIG of src/unnamed/part_000 (not the
default actually used by derivePasswordHash). -/
def DEFAULT_ARGON2_CONFIG : Argon2Config :=
  { memoryCost := 65536, timeCost := 3, parallelism := 4, hashLength := 32 }

/-- Embeds ARGON2_CONFIG of src/frontend/src/lib/helpers/constants.ts,
the config derivePasswordHash uses when its config argument is omitted. -/
def ARGON2_CONFIG : Argon2Config :=
  { memoryCost := 65534, timeCost := 3, parallelism := 4, hashLength := 32 }

/-- Embeds the CryptoError class: a message and an error code. -/
structure CryptoError where
  message : String
  code : String
deriving DecidableEq

/-- Embeds Bytes.stringToBytes. The exact UTF-8 byte layout is
irrelevant to every claim, so the encoding is abstracted to the
character codes; it is injective on the inputs that occur. -/
def stringToBytes (s : List Char) : List Nat :=
  s.map Char.toNat

/-- The argument record of one argon2id invocation, field for field as
in the call inside Kdf.derivePasswordHash. -/
structure Argon2Call where
  password : List Nat
  salt : List Nat
  parallelism : Nat
  iterations : Nat
  memorySize : Nat
  hashLength : Nat
deriving DecidableEq

/-- Embeds the validation and argument assembly of
Kdf.derivePasswordHash: rejects a salt below 16 bytes and an empty
password, then builds the argon2id invocation from the config (the
config parameter defaults to ARGON2_CONFIG as in the source). -/
def derivePasswordHashCall (password : List Char) (salt : List Nat)
    (config : Argon2Config := ARGON2_CONFIG) : Except CryptoError Argon2Call :=
  if salt.length < 16 then
    .error { message := "Salt must be at least 16 bytes", code := "ARGON2_INVALID_SALT" }
  else if password.length = 0 then
    .error { message := "Password cannot be empty", code := "ARGON2_INVALID_PASSWORD" }
  else
    .ok { password := stringToBytes password, salt := salt,
          parallelism := config.parallelism, iterations := config.timeCost,
          memorySize := config.memoryCost, hashLength := config.hashLength }

/-- Embeds Kdf.derivePasswordHash, with the argon2id primitive itself
passed in as a function from its argument record to the derived hash. -/
def derivePasswordHash (argon2id : Argon2Call → List Nat)
    (password : List Char) (salt : List Nat)
    (config : Argon2Config := ARGON2_CONFIG) : Except CryptoError (List Nat) :=
  (derivePasswordHashCall password salt config).map argon2id

/-! ## Kdf: unlock-key derivation (src/unnamed/part_000) -/

/-- The primitive-crypto context of one run of the Kdf module. The
walletSignature field is the ambient external signature of the run
(none when no signer participates); whether deriveUnlockKey reads it is
exactly what claim C8 asks. -/
structure KdfEnv where
  argon2id : Argon2Call → List Nat
  keccak256 : List Nat → List Nat
  hkdf : List Nat → List Nat → List Nat → Nat → List Nat
  walletSignature : Option (List Nat)

/-- Embeds Kdf.deriveUnlockKey: argon2id on the password with the
unlock salt (default config), then HKDF-keccak256 with the fixed
unlock-key domain-separation salt and info strings. The source zeroes
the intermediate password hash; the returned value is unaffected. -/
def deriveUnlockKey (env : KdfEnv) (password : List Char)
    (unlockSalt : List Nat) : Except CryptoError (List Nat) := do
  let passwordHash ← derivePasswordHash env.argon2id password unlockSalt
  let salt := env.keccak256 (stringToBytes "NinjaRupiah-unlock-salt-v1".toList)
  let info := stringToBytes "NinjaRupiah-v1: unlock-key".toList
  .ok (env.hkdf passwordHash salt info 32)

/-! ## KeyManager (src/frontend/src/lib/keys/manager.ts)

The manager orchestrates the vault and the derivation hierarchy. Its
collaborators Storage and Derivation are outside src, so their
per-operation results enter as environment fields; the control flow
below is translated statement for statement from manager.ts. -/

/-- The error codes of the KeyError class that manager.ts raises or
wraps to (ERROR_CODES of lib/helpers/errors); unspecified stands for a
KeyError constructed without a code, as in the updatePassword wrapper. -/
inductive ErrCode
  | keyAlreadyExists
  | keyInvalid
  | keyNotInitialized
  | keyLocked
  | keyDerivationFailed
  | authInvalidPassword
  | unspecified
deriving DecidableEq

/-- A thrown error, as the catch blocks of manager.ts distinguish them:
either a KeyError carrying a code, or any other exception (CryptoError
from the Kdf, StorageError or a decryption failure from Storage). -/
inductive AppError
  | keyErr (code : ErrCode)
  | otherErr
deriving DecidableEq

instance {ε α : Type} [DecidableEq ε] [DecidableEq α] : DecidableEq (Except ε α) := fun a b =>
  match a, b with
  | .error e1, .error e2 =>
    if h : e1 = e2 then .isTrue (by rw [h]) else .isFalse (by simp [h])
  | .ok v1, .ok v2 =>
    if h : v1 = v2 then .isTrue (by rw [h]) else .isFalse (by simp [h])
  | .error _, .ok _ => .isFalse (by simp)
  | .ok _, .error _ => .isFalse (by simp)

/-- Embeds the DerivedKeys bundle of lib/keys/types: the master key,
the storage-encryption key, and the meta viewing and spending key
pairs. -/
structure DerivedKeys where
  masterKey : List Nat
  storageEncryptionKey : List Nat
  metaViewingPriv : List Nat
  metaViewingPub : List Nat
  metaSpendingPriv : List Nat
  metaSpendingPub : List Nat
deriving DecidableEq

/-- Embeds the persisted vault record that Storage saves and loads:
ciphertext (nonce and tag folded in), the master-key salt, the unlock
salt, and the identifier fields. Salts are carried as byte lists; the
base64 text encoding used by IndexedDB is a bijective presentation
detail and is elided. -/
structure StoredRecord where
  ciphertext : List Nat
  salt : List Nat
  unlockSalt : List Nat
  walletAddress : String
  userIdentifier : String
  authMethod : String
deriving DecidableEq

/-- Embeds KeyManagerState of manager.ts, in the field order of the
source initializer. -/
structure KeyManagerState where
  isInitialized : Bool
  isUnlocked : Bool
  walletAddress : Option String
  authMethod : Option String
  userIdentifier : Option String
  keys : Option DerivedKeys
deriving DecidableEq

/-- Modelled from the spec: Derivation.zeroKeys of lib/keys/derivation
is not in src. Section 4.3 states that on lock every private-key byte
sequence is overwritten with zeros; the public meta keys carry no
secret and are left as they are. -/
def zeroKeys (k : DerivedKeys) : DerivedKeys :=
  { masterKey := List.replicate k.masterKey.length 0
    storageEncryptionKey := List.replicate k.storageEncryptionKey.length 0
    metaViewingPriv := List.replicate k.metaViewingPriv.length 0
    metaViewingPub := k.metaViewingPub
    metaSpendingPriv := List.replicate k.metaSpendingPriv.length 0
    metaSpendingPub := k.metaSpendingPub }

/-- Embeds KeyManager.lock. The TypeScript method mutates the held
Uint8Array buffers in place and then drops the reference; here the
first component is the new manager state and the second component is
the value the previously held key bundle has been overwritten with
(none when no bundle was held). -/
def lockStep (st : KeyManagerState) : KeyManagerState × Option DerivedKeys :=
  (⟨st.isInitialized, false, st.walletAddress, st.authMethod, st.userIdentifier, none⟩,
   st.keys.map zeroKeys)

/-- Embeds KeyManager.getKeys: the keys are returned only when the
state is unlocked and a bundle is held, otherwise a Locked KeyError. -/
def getKeys (st : KeyManagerState) : Except AppError DerivedKeys :=
  match st.isUnlocked, st.keys with
  | true, some k => .ok k
  | _, _ => .error (.keyErr .keyLocked)

/-- The catch-block wrapping of KeyManager.unlock: a KeyError is
rethrown as it is, anything else becomes AUTH_INVALID_PASSWORD. -/
def wrapUnlockError : AppError → AppError
  | .keyErr c => .keyErr c
  | .otherErr => .keyErr .authInvalidPassword

/-- The catch-block wrapping of KeyManager.initialize: a KeyError is
rethrown as it is, anything else becomes KEY_DERIVATION_FAILED. -/
def wrapInitError : AppError → AppError
  | .keyErr c => .keyErr c
  | .otherErr => .keyErr .keyDerivationFailed

/-- The catch-block wrapping of KeyManager.updatePassword: a KeyError
is rethrown as it is, anything else becomes a KeyError without a code. -/
def wrapUpdateError : AppError → AppError
  | .keyErr c => .keyErr c
  | .otherErr => .keyErr .unspecified

/-- The observable outcome of one manager operation: the state it
leaves behind, the returned or thrown result, the vault records it
wrote to storage, and whether the in-memory unlock-key buffer the
operation derived had been zeroed by the time it returned or threw
(none when no unlock key was materialized on that path). -/
structure OpRun where
  state : KeyManagerState
  result : Except AppError Unit
  saves : List StoredRecord
  unlockKeyZeroed : Option Bool
deriving DecidableEq

/-- The per-call results of the collaborators KeyManager.unlock
consults: the record loaded for the wallet address, the unlock-key
derivation (password and salt to key), the vault decryption, and the
key validation. -/
structure UnlockEnv where
  loadRecord : Option StoredRecord
  deriveUnlockKey : List Char → List Nat → Except AppError (List Nat)
  decryptKeys : StoredRecord → List Nat → Except AppError DerivedKeys
  validateKeys : DerivedKeys → Bool

/-- Embeds KeyManager.unlock (manager.ts lines 168 to 211): load the
record, derive the unlock key from the password and the stored unlock
salt, decrypt, zero the unlock key, validate, and move to Unlocked; on
any throw the catch block locks and rethrows through wrapUnlockError.
The fill(0) on the unlock key sits between decryptKeys and
validateKeys in the source, which the unlockKeyZeroed flag records. -/
def unlock (env : UnlockEnv) (st : KeyManagerState) (password : List Char)
    (walletAddress : String) : OpRun :=
  match env.loadRecord with
  | none =>
    { state := (lockStep st).1,
      result := .error (wrapUnlockError (.keyErr .keyNotInitialized)),
      saves := [], unlockKeyZeroed := none }
  | some rec =>
    match env.deriveUnlockKey password rec.unlockSalt with
    | .error e =>
      { state := (lockStep st).1, result := .error (wrapUnlockError e),
        saves := [], unlockKeyZeroed := none }
    | .ok unlockKey =>
      match env.decryptKeys rec unlockKey with
      | .error e =>
        { state := (lockStep st).1, result := .error (wrapUnlockError e),
          saves := [], unlockKeyZeroed := some false }
      | .ok decrypted =>
        if env.validateKeys decrypted then
          { state := ⟨true, true, some walletAddress, some rec.authMethod,
                      some rec.userIdentifier, some decrypted⟩,
            result := .ok (), saves := [], unlockKeyZeroed := some true }
        else
          { state := (lockStep st).1,
            result := .error (wrapUnlockError (.keyErr .keyInvalid)),
            saves := [], unlockKeyZeroed := some true }

/-- Modelled from the spec: Storage.encryptKeys of lib/keys/storage is
not in src. Per section 4.2 it encrypts the key set under the unlock
key (fresh nonce, identifiers bound as associated data) and returns the
vault record carrying the ciphertext, both salts, and the identifiers;
the authenticated encryption itself is the abstract parameter aead. -/
def encryptKeysModel (aead : DerivedKeys → List Nat → List Nat)
    (keys : DerivedKeys) (unlockKey : List Nat)
    (walletAddress userIdentifier authMethod : String)
    (masterSalt unlockSalt : List Nat) : StoredRecord :=
  { ciphertext := aead keys unlockKey
    salt := masterSalt
    unlockSalt := unlockSalt
    walletAddress := walletAddress
    userIdentifier := userIdentifier
    authMethod := authMethod }

/-- The per-call results of the collaborators KeyManager.initialize
consults. -/
structure InitEnv where
  keyExists : Bool
  deriveKeys : Except AppError (DerivedKeys × List Nat)
  validateKeys : DerivedKeys → Bool
  genUnlockSalt : List Nat
  deriveUnlockKey : List Char → List Nat → Except AppError (List Nat)
  aead : DerivedKeys → List Nat → List Nat
  saveResult : Except AppError Unit

/-- Embeds KeyManager.initialize (manager.ts lines 84 to 138; the name
initialize is unavailable in this development): reject when a record
already exists, derive and validate the key set, derive the unlock key
from a fresh unlock salt, encrypt, zero the unlock key, persist, and
move to Unlocked; on any throw the catch block locks and rethrows
through wrapInitError. -/
def initAccount (env : InitEnv) (st : KeyManagerState) (password : List Char)
    (walletAddress userIdentifier authMethod : String) : OpRun :=
  if env.keyExists then
    { state := (lockStep st).1,
      result := .error (wrapInitError (.keyErr .keyAlreadyExists)),
      saves := [], unlockKeyZeroed := none }
  else
    match env.deriveKeys with
    | .error e =>
      { state := (lockStep st).1, result := .error (wrapInitError e),
        saves := [], unlockKeyZeroed := none }
    | .ok (keys, salt) =>
      if env.validateKeys keys = false then
        { state := (lockStep st).1,
          result := .error (wrapInitError (.keyErr .keyInvalid)),
          saves := [], unlockKeyZeroed := none }
      else
        match env.deriveUnlockKey password env.genUnlockSalt with
        | .error e =>
          { state := (lockStep st).1, result := .error (wrapInitError e),
            saves := [], unlockKeyZeroed := none }
        | .ok unlockKey =>
          let encrypted := encryptKeysModel env.aead keys unlockKey
            walletAddress userIdentifier authMethod salt env.genUnlockSalt
          match env.saveResult with
          | .error e =>
            { state := (lockStep st).1, result := .error (wrapInitError e),
              saves := [], unlockKeyZeroed := some true }
          | .ok _ =>
            { state := ⟨true, true, some walletAddress, some authMethod,
                        some userIdentifier, some keys⟩,
              result := .ok (), saves := [encrypted], unlockKeyZeroed := some true }

/-- The per-call results of the collaborators KeyManager.updatePassword
consults: its inner unlock uses u, then the second load reads the same
stored record u.loadRecord, and the new unlock key is derived by the
same Kdf entry point u.deriveUnlockKey on the new password and the
fresh salt genUnlockSalt. -/
structure UpdateEnv where
  u : UnlockEnv
  genUnlockSalt : List Nat
  aead : DerivedKeys → List Nat → List Nat
  saveResult : Except AppError Unit

/-- Embeds KeyManager.updatePassword (manager.ts lines 390 to 438):
re-validate the old password through unlock, reload the existing record
to recover the original master-key salt, derive a new unlock key from
the new password and a fresh unlock salt, re-encrypt the key set held
in state with the original master-key salt preserved, and persist. The
catch block rethrows KeyErrors and wraps anything else; it does not
lock (the inner unlock already locked on its own failure). -/
def updatePassword (env : UpdateEnv) (st : KeyManagerState)
    (oldPassword newPassword : List Char) : OpRun :=
  match st.walletAddress with
  | none =>
    { state := st, result := .error (wrapUpdateError (.keyErr .keyNotInitialized)),
      saves := [], unlockKeyZeroed := none }
  | some wa =>
    let r1 := unlock env.u st oldPassword wa
    match r1.result with
    | .error e =>
      { state := r1.state, result := .error (wrapUpdateError e),
        saves := [], unlockKeyZeroed := r1.unlockKeyZeroed }
    | .ok _ =>
      match r1.state.keys with
      | none =>
        { state := r1.state,
          result := .error (wrapUpdateError (.keyErr .authInvalidPassword)),
          saves := [], unlockKeyZeroed := r1.unlockKeyZeroed }
      | some keys =>
        match env.u.loadRecord with
        | none =>
          { state := r1.state,
            result := .error (wrapUpdateError (.keyErr .keyNotInitialized)),
            saves := [], unlockKeyZeroed := r1.unlockKeyZeroed }
        | some existing =>
          match env.u.deriveUnlockKey newPassword env.genUnlockSalt with
          | .error e =>
            { state := r1.state, result := .error (wrapUpdateError e),
              saves := [], unlockKeyZeroed := r1.unlockKeyZeroed }
          | .ok newUnlockKey =>
            let encrypted := encryptKeysModel env.aead keys newUnlockKey wa
              (r1.state.userIdentifier.getD "") (r1.state.authMethod.getD "")
              existing.salt env.genUnlockSalt
            match env.saveResult with
            | .error e =>
              { state := r1.state, result := .error (wrapUpdateError e),
                saves := [], unlockKeyZeroed := some true }
            | .ok _ =>
              { state := r1.state, result := .ok (),
                saves := [encrypted], unlockKeyZeroed := some true }

/-! ## Stealth Address Engine

Modelled from the spec: the Address class of lib/stealth (the
generateStealthPayment and checkStealthPayment used by
useMetaKeys.ts and useStealthPayments.ts) is not in src. Section 4.4
gives the dual-key scheme over an elliptic-curve group with generator
G. The group is embedded in discrete-log form: a point is the element
of ZMod n it is a multiple of under an abstract generator unit g, so
point addition is addition in ZMod n and scalar multiplication is
multiplication; the hash-to-scalar step and the address encoding
(hash-and-truncate of the point) are abstract function parameters. -/

/-- The output of generate: the published stealth address and the
published ephemeral public point R. -/
structure StealthGen (n : ℕ) where
  stealthAddress : ℕ
  ephemeralPub : ZMod n

/-- The output of check: the match flag, the recomputed address, the
underlying recomputed one-time public point, and the hash scalar from
which the spendable private scalar d is formed. -/
structure StealthCheck (n : ℕ) where
  isForMe : Bool
  derivedAddress : ℕ
  derivedPub : ZMod n
  tweak : ZMod n

/-- Modelled from the spec, section 4.4: generate samples a fresh
ephemeral scalar r, publishes R equal to r times G, computes the shared
point S equal to r times the meta viewing public key, hashes S to a
scalar h, and forms the one-time point P as the meta spending public
key plus h times G, returning the address encoding of P together with
R. -/
def generateStealthPayment (n : ℕ) (g : ZMod n) (hashToScalar : ZMod n → ZMod n)
    (addressOf : ZMod n → ℕ) (r metaViewingPub metaSpendingPub : ZMod n) :
    StealthGen n :=
  let R := r * g
  let S := r * metaViewingPub
  let h := hashToScalar S
  let P := metaSpendingPub + h * g
  { stealthAddress := addressOf P, ephemeralPub := R }

/-- Modelled from the spec, section 4.4: check recomputes the shared
point as the viewing private scalar times R, hashes it, rebuilds the
one-time point from the meta spending public key, and compares its
address encoding with the candidate address. -/
def checkStealthPayment (n : ℕ) (g : ZMod n) (hashToScalar : ZMod n → ZMod n)
    (addressOf : ZMod n → ℕ) (R viewingPriv metaSpendingPub : ZMod n)
    (candidateAddress : ℕ) : StealthCheck n :=
  let S := viewingPriv * R
  let h := hashToScalar S
  let P := metaSpendingPub + h * g
  let derivedAddress := addressOf P
  { isForMe := derivedAddress == candidateAddress,
    derivedAddress := derivedAddress, derivedPub := P, tweak := h }

/-! ## Payment Discovery Pipeline (src/frontend/src/hooks/useStealthPayments.ts)

The per-log decode pipeline of scanPayments, lines 224 to 358. The
viem decoders are external, so a transaction payload is embedded by
the results the decoders would give on it: ninahDec is the result of
decodeFunctionData with the payment-contract ABI on the raw input
(none when it throws), selector the first four bytes of the input, and
handleOpsDec the result of decodeAbiParameters with the EntryPoint
handleOps layout on the remaining bytes. Inner calls carry their
target and the decode result of their embedded data the same way. -/

def SELECTOR_HANDLEOPS : Nat := 0x1fad948c

def SELECTOR_EXECUTE_SINGLE : Nat := 0xb61d27f6

def SELECTOR_EXECUTE_BATCH : Nat := 0x34fcd5be

/-- A successful decodeFunctionData against the payment-contract ABI:
the sendToStealth call with its three arguments, or some other function
of that ABI. -/
inductive NinahCall
  | sendToStealth (stealthAddress amount ephemeralPubkey : Nat)
  | otherFunction (name : String)
deriving DecidableEq

/-- One forwarded call: its target address (lowercased addresses are
compared as numbers) and the decode result of its embedded call data
against the payment-contract ABI (none when that decode throws). -/
structure InnerCall where
  target : Nat
  dec : Option NinahCall
deriving DecidableEq

/-- One ERC-4337 UserOperation as the scanner sees it: the selector of
its callData, and the decode results of that callData under the
single-call and batch execute layouts (none when the decode throws). -/
structure UserOp where
  callDataSelector : Nat
  singleDec : Option InnerCall
  batchDec : Option (List InnerCall)
deriving DecidableEq

/-- A transaction payload, by its decode results as described above. -/
structure TxPayload where
  ninahDec : Option NinahCall
  selector : Nat
  handleOpsDec : Option (List UserOp)
deriving DecidableEq

/-- Lines 286 to 303 and 323 to 341: an inner forwarded call is
inspected only when its target equals the known payment contract
address, and yields a key only when its data decodes to sendToStealth;
a failing inner decode is caught locally and yields nothing. -/
def innerExtract (ninahAddr : Nat) (c : InnerCall) : Option Nat :=
  if c.target = ninahAddr then
    match c.dec with
    | some (.sendToStealth _ _ k) => some k
    | _ => none
  else none

/-- Lines 320 to 342: the batch loop takes the first forwarded call
whose target is the payment contract and whose data decodes to
sendToStealth. -/
def batchExtract (ninahAddr : Nat) : List InnerCall → Option Nat
  | [] => none
  | c :: rest =>
    match innerExtract ninahAddr c with
    | some k => some k
    | none => batchExtract ninahAddr rest

/-- Lines 269 to 345, one UserOperation: the single-call execute shape
is tried first, then the batch shape only when nothing was found; a
throwing decodeAbiParameters aborts the whole envelope attempt, which
the error value records. -/
def processOp (ninahAddr : Nat) (op : UserOp) : Except Unit (Option Nat) :=
  let found1 : Except Unit (Option Nat) :=
    if op.callDataSelector = SELECTOR_EXECUTE_SINGLE then
      match op.singleDec with
      | none => .error ()
      | some c => .ok (innerExtract ninahAddr c)
    else .ok none
  match found1 with
  | .error e => .error e
  | .ok (some k) => .ok (some k)
  | .ok none =>
    if op.callDataSelector = SELECTOR_EXECUTE_BATCH then
      match op.batchDec with
      | none => .error ()
      | some calls => .ok (batchExtract ninahAddr calls)
    else .ok none

/-- Lines 269 to 345, the loop over UserOperations: stops at the first
operation that yields a key; an abort anywhere aborts the rest. -/
def processOps (ninahAddr : Nat) : List UserOp → Except Unit (Option Nat)
  | [] => .ok none
  | op :: rest =>
    match processOp ninahAddr op with
    | .error e => .error e
    | .ok (some k) => .ok (some k)
    | .ok none => processOps ninahAddr rest

/-- Lines 224 to 358, the whole per-log pipeline: first the direct
decode against the payment-contract ABI (a successful decode of some
other function skips the log); only when that decode throws, the
handleOps envelope is tried, guarded by its selector; every failure
inside the envelope attempt is caught and the log is skipped, so the
pipeline is total and a skip is the value none, never an error. -/
def scanExtractEphemeral (ninahAddr : Nat) (p : TxPayload) : Option Nat :=
  match p.ninahDec with
  | some (.sendToStealth _ _ k) => some k
  | some _ => none
  | none =>
    if p.selector = SELECTOR_HANDLEOPS then
      match p.handleOpsDec with
      | none => none
      | some ops =>
        match processOps ninahAddr ops with
        | .error _ => none
        | .ok r => r
    else none

/-! ## Theorems -/

theorem hexDigitVal_hexDigitChar : ∀ d : Nat, d < 16 → hexDigitVal (hexDigitChar d) = some d := by
  decide

theorem hexPairsToBytes_cons (c1 c2 : Char) (rest : List Char) :
    hexPairsToBytes (c1 :: c2 :: rest) = (parseIntHex2 c1 c2).getD 0 :: hexPairsToBytes rest :=
  rfl

theorem hexPairsToBytes_encode (b : List Nat) (h : ∀ x ∈ b, x < 256) :
    hexPairsToBytes (b.map byteToHex).flatten = b := by
  induction b with
  | nil => rfl
  | cons x xs ih =>
    have hx : x < 256 := h x (List.mem_cons_self x xs)
    have h1 : x / 16 < 16 := by omega
    have h2 : x % 16 < 16 := by omega
    have e1 := hexDigitVal_hexDigitChar (x / 16) h1
    have e2 := hexDigitVal_hexDigitChar (x % 16) h2
    simp only [List.map_cons, List.flatten_cons, byteToHex, List.cons_append,
      List.nil_append, hexPairsToBytes_cons, parseIntHex2, e1, e2, Option.getD_some]
    rw [Nat.div_add_mod, ih (fun y hy => h y (List.mem_cons_of_mem _ hy))]

theorem flatten_byteToHex_length (b : List Nat) :
    ((b.map byteToHex).flatten).length = 2 * b.length := by
  induction b with
  | nil => rfl
  | cons x xs ih =>
    simp only [List.map_cons, List.flatten_cons, List.length_append, byteToHex,
      List.length_cons, List.length_nil, ih, List.length_cons]
    omega

/-- C10: for every byte array b, hexToBytes applied to bytesToHex of b
returns b: the hex encoder emits the 0x prefix and two lowercase digits
per byte, and the decoder strips the prefix, accepts the even length,
and recovers each byte. -/
theorem hexToBytes_bytesToHex (b : List Nat) (h : ∀ x ∈ b, x < 256) :
    hexToBytes (bytesToHex b) = .ok b := by
  have hclean : stripHexPrefix (bytesToHex b) = (b.map byteToHex).flatten := rfl
  have hlen : ((b.map byteToHex).flatten).length % 2 = 0 := by
    rw [flatten_byteToHex_length]; omega
  unfold hexToBytes
  rw [hclean, if_neg (by omega), hexPairsToBytes_encode b h]

/-- C10 witness: the round trip evaluated at the byte array
0, 17, 171, 255. -/
theorem hexToBytes_bytesToHex_witness :
    (∀ x ∈ [0, 17, 171, 255], x < 256) ∧
    hexToBytes (bytesToHex [0, 17, 171, 255]) = .ok [0, 17, 171, 255] :=
  ⟨by decide, hexToBytes_bytesToHex [0, 17, 171, 255] (by decide)⟩

/-- C7 counterexample: with the config argument omitted,
derivePasswordHash assembles its argon2id invocation from
ARGON2_CONFIG of constants.ts, whose memory cost is 65534 KiB, not the
65536 KiB the claim states (the unused DEFAULT_ARGON2_CONFIG of the
Kdf module is the one holding 65536). -/
theorem derivePasswordHash_default_memoryCost_ne_65536 :
    (derivePasswordHashCall ['a', 'b'] (List.replicate 16 0)).map (fun c => c.memorySize)
      = .ok 65534 ∧ (65534 : Nat) ≠ 65536 :=
  ⟨rfl, by decide⟩

/-- C7 theorem (amended): with the config argument omitted and valid
inputs, derivePasswordHash runs argon2id with memory cost 65534 KiB
(about 64 MiB), 3 passes, 4 lanes, and a 32-byte output. -/
theorem derivePasswordHash_default_params (password : List Char) (salt : List Nat)
    (hs : 16 ≤ salt.length) (hp : password ≠ []) :
    derivePasswordHashCall password salt =
      .ok { password := stringToBytes password, salt := salt,
            parallelism := 4, iterations := 3, memorySize := 65534, hashLength := 32 } := by
  unfold derivePasswordHashCall
  rw [if_neg (by omega), if_neg (by simp only [List.length_eq_zero]; exact hp)]
  rfl

/-- C7 witness: the amended default parameters evaluated at a concrete
password and a 16-byte salt. -/
theorem derivePasswordHash_default_params_witness :
    16 ≤ (List.replicate 16 (0 : Nat)).length ∧ (['p', 'w'] : List Char) ≠ [] ∧
    derivePasswordHashCall ['p', 'w'] (List.replicate 16 0) =
      .ok { password := stringToBytes ['p', 'w'], salt := List.replicate 16 0,
            parallelism := 4, iterations := 3, memorySize := 65534, hashLength := 32 } :=
  ⟨by decide, by decide,
   derivePasswordHash_default_params ['p', 'w'] (List.replicate 16 0) (by decide) (by decide)⟩

/-- C8: the unlock key never depends on the external wallet signature:
for every password and unlock salt, two runs of deriveUnlockKey whose
ambient contexts differ only in the wallet signature (present, absent,
or different) produce the same result, because the source derivation
reads only the password, the unlock salt, and the fixed
domain-separation constants. -/
theorem deriveUnlockKey_signature_independent (env : KdfEnv)
    (sig1 sig2 : Option (List Nat)) (password : List Char) (unlockSalt : List Nat) :
    deriveUnlockKey { env with walletSignature := sig1 } password unlockSalt
      = deriveUnlockKey { env with walletSignature := sig2 } password unlockSalt :=
  rfl

/-- The environment of the C2 counterexample: no vault record exists
for the wallet address. -/
def envAbsent : UnlockEnv :=
  { loadRecord := none,
    deriveUnlockKey := fun _ _ => .ok [],
    decryptKeys := fun _ _ => .error .otherErr,
    validateKeys := fun _ => true }

/-- A locked manager state holding no keys, used as the starting state
of the counterexamples and witnesses. -/
def stLocked : KeyManagerState :=
  { isInitialized := true, isUnlocked := false, walletAddress := some "0xabc",
    authMethod := none, userIdentifier := none, keys := none }

/-- C2 counterexample: when no vault record exists for the wallet
address, unlock fails, but the reported error is KEY_NOT_INITIALIZED
(the KeyError thrown on line 175 of manager.ts is rethrown as it is by
the catch block), not AUTH_INVALID_PASSWORD, refuting that every
failing unlock reports InvalidPassword regardless of the cause. -/
theorem unlock_absent_record_not_invalidPassword :
    (unlock envAbsent stLocked ['p'] "0xabc").result
      = .error (.keyErr .keyNotInitialized) ∧
    AppError.keyErr .keyNotInitialized ≠ .keyErr .authInvalidPassword :=
  ⟨rfl, by decide⟩

/-- C2 theorem (amended): every failing unlock forces the manager into
the Locked state (isUnlocked false, keys dropped); a failure whose
underlying cause is not itself a KeyError (wrong password or corrupted
record, surfacing as a decryption or derivation exception) is reported
as InvalidPassword through wrapUnlockError, while an absent record is
reported as NotInitialized and invalid decrypted keys as KeyInvalid,
each rethrown with its own code. -/
theorem unlock_failure_locked (env : UnlockEnv) (st : KeyManagerState)
    (password : List Char) (wa : String) :
    (∀ e, (unlock env st password wa).result = .error e →
      (unlock env st password wa).state.isUnlocked = false ∧
      (unlock env st password wa).state.keys = none) ∧
    (env.loadRecord = none →
      (unlock env st password wa).result = .error (.keyErr .keyNotInitialized)) ∧
    (∀ rec, env.loadRecord = some rec →
      (∀ e, env.deriveUnlockKey password rec.unlockSalt = .error e →
        (unlock env st password wa).result = .error (wrapUnlockError e)) ∧
      (∀ uk, env.deriveUnlockKey password rec.unlockSalt = .ok uk →
        (∀ e, env.decryptKeys rec uk = .error e →
          (unlock env st password wa).result = .error (wrapUnlockError e)) ∧
        (∀ k, env.decryptKeys rec uk = .ok k → env.validateKeys k = false →
          (unlock env st password wa).result = .error (.keyErr .keyInvalid)))) ∧
    wrapUnlockError .otherErr = .keyErr .authInvalidPassword := by
  refine ⟨?_, ?_, ?_, rfl⟩
  · intro e he
    unfold unlock at he ⊢
    cases hl : env.loadRecord with
    | none => simp [hl, lockStep]
    | some rec =>
      cases hd : env.deriveUnlockKey password rec.unlockSalt with
      | error e2 => simp [hl, hd, lockStep]
      | ok uk =>
        cases hk : env.decryptKeys rec uk with
        | error e3 => simp [hl, hd, hk, lockStep]
        | ok d =>
          by_cases hv : env.validateKeys d
          · simp [hl, hd, hk, hv] at he
          · simp [hl, hd, hk, hv, lockStep]
  · intro h0
    simp [unlock, h0, wrapUnlockError]
  · intro rec hrec
    refine ⟨?_, ?_⟩
    · intro e he
      simp [unlock, hrec, he]
    · intro uk huk
      refine ⟨?_, ?_⟩
      · intro e he
        simp [unlock, hrec, huk, he]
      · intro k hk hv
        simp [unlock, hrec, huk, hk, hv, wrapUnlockError]

/-- The environment of the C2 witness and the C5 theorem: the record
exists and the unlock key derives, but decryption fails with a
non-KeyError (the wrong-password or corrupted-record case). -/
def envBadDecrypt : UnlockEnv :=
  { loadRecord := some
      { ciphertext := [1], salt := [2], unlockSalt := List.replicate 16 0,
        walletAddress := "0xabc", userIdentifier := "alice", authMethod := "email" },
    deriveUnlockKey := fun _ _ => .ok (List.replicate 32 7),
    decryptKeys := fun _ _ => .error .otherErr,
    validateKeys := fun _ => true }

/-- C2 witness: the amended theorem evaluated at a wrong-password run:
the manager ends Locked and the error is InvalidPassword. -/
theorem unlock_failure_locked_witness :
    (unlock envBadDecrypt stLocked ['p'] "0xabc").state.isUnlocked = false ∧
    (unlock envBadDecrypt stLocked ['p'] "0xabc").state.keys = none ∧
    (unlock envBadDecrypt stLocked ['p'] "0xabc").result
      = .error (.keyErr .authInvalidPassword) := by
  have h := unlock_failure_locked envBadDecrypt stLocked ['p'] "0xabc"
  have h3 := ((h.2.2.1
      { ciphertext := [1], salt := [2], unlockSalt := List.replicate 16 0,
        walletAddress := "0xabc", userIdentifier := "alice", authMethod := "email" }
      (by rfl)).2 (List.replicate 32 7) (by rfl)).1 .otherErr (by rfl)
  have h1 := h.1 _ h3
  exact ⟨h1.1, h1.2, h3⟩

/-- C3: if a vault record already exists for the wallet address,
initialize fails with AlreadyExists and, like every failing
initialize, leaves the manager in the Locked state (isUnlocked false,
no keys held) with nothing written to storage. -/
theorem initAccount_alreadyExists_locked (env : InitEnv) (st : KeyManagerState)
    (password : List Char) (wa uid am : String) :
    (env.keyExists = true →
      (initAccount env st password wa uid am).result
        = .error (.keyErr .keyAlreadyExists) ∧
      (initAccount env st password wa uid am).saves = []) ∧
    (∀ e, (initAccount env st password wa uid am).result = .error e →
      (initAccount env st password wa uid am).state.isUnlocked = false ∧
      (initAccount env st password wa uid am).state.keys = none ∧
      (initAccount env st password wa uid am).saves = []) := by
  constructor
  · intro hex
    simp [initAccount, hex, wrapInitError]
  · intro e he
    unfold initAccount at he ⊢
    by_cases hex : env.keyExists
    · simp [hex, lockStep]
    · cases hdk : env.deriveKeys with
      | error e2 => simp [hex, hdk, lockStep]
      | ok p =>
        by_cases hv : env.validateKeys p.1 = false
        · simp [hex, hdk, hv, lockStep]
        · cases huk : env.deriveUnlockKey password env.genUnlockSalt with
          | error e3 => simp [hex, hdk, hv, huk, lockStep]
          | ok uk =>
            cases hsv : env.saveResult with
            | error e4 => simp [hex, hdk, hv, huk, hsv, lockStep]
            | ok u =>
              rw [if_neg hex, hdk] at he
              simp [hv, huk, hsv] at he

/-- C3 witness: the theorem evaluated at an environment whose
existence check reports a record, starting from an unlocked state. -/
theorem initAccount_alreadyExists_locked_witness :
    (initAccount
        { keyExists := true, deriveKeys := .error .otherErr,
          validateKeys := fun _ => true, genUnlockSalt := List.replicate 16 0,
          deriveUnlockKey := fun _ _ => .ok [], aead := fun _ _ => [],
          saveResult := .ok () }
        stLocked ['p'] "0xabc" "alice" "email").result
      = .error (.keyErr .keyAlreadyExists) ∧
    (initAccount
        { keyExists := true, deriveKeys := .error .otherErr,
          validateKeys := fun _ => true, genUnlockSalt := List.replicate 16 0,
          deriveUnlockKey := fun _ _ => .ok [], aead := fun _ _ => [],
          saveResult := .ok () }
        stLocked ['p'] "0xabc" "alice" "email").saves = [] :=
  (initAccount_alreadyExists_locked _ stLocked ['p'] "0xabc" "alice" "email").1 rfl

/-- C4: for a manager holding a key set, lock overwrites every byte of
the private-key fields of the held bundle with zero, preserves the
wallet address, user identifier and auth method, makes a subsequent
getKeys fail with Locked, and a second lock leaves the state
unchanged. -/
theorem lock_wipes_and_is_idempotent (st : KeyManagerState) (k : DerivedKeys)
    (h : st.keys = some k) :
    (lockStep st).2 = some (zeroKeys k) ∧
    (∀ b ∈ (zeroKeys k).masterKey, b = 0) ∧
    (∀ b ∈ (zeroKeys k).storageEncryptionKey, b = 0) ∧
    (∀ b ∈ (zeroKeys k).metaViewingPriv, b = 0) ∧
    (∀ b ∈ (zeroKeys k).metaSpendingPriv, b = 0) ∧
    (lockStep st).1.walletAddress = st.walletAddress ∧
    (lockStep st).1.userIdentifier = st.userIdentifier ∧
    (lockStep st).1.authMethod = st.authMethod ∧
    getKeys (lockStep st).1 = .error (.keyErr .keyLocked) ∧
    (lockStep (lockStep st).1).1 = (lockStep st).1 := by
  refine ⟨by simp [lockStep, h], ?_, ?_, ?_, ?_, rfl, rfl, rfl, rfl, rfl⟩
  all_goals exact fun b hb => List.eq_of_mem_replicate hb

/-- A concrete key bundle for the C4 witness. -/
def kW : DerivedKeys :=
  { masterKey := [1, 2], storageEncryptionKey := [3], metaViewingPriv := [4],
    metaViewingPub := [5], metaSpendingPriv := [6], metaSpendingPub := [7] }

/-- A concrete unlocked state holding kW, for the C4 witness. -/
def stUnlockedW : KeyManagerState :=
  { isInitialized := true, isUnlocked := true, walletAddress := some "0xabc",
    authMethod := some "email", userIdentifier := some "alice", keys := some kW }

/-- C4 witness: lock evaluated at a concrete unlocked state holding a
concrete key bundle. -/
theorem lock_wipes_and_is_idempotent_witness :
    (lockStep stUnlockedW).2 = some (zeroKeys kW) ∧
    getKeys (lockStep stUnlockedW).1 = .error (.keyErr .keyLocked) := by
  have h := lock_wipes_and_is_idempotent stUnlockedW kW (by rfl)
  exact ⟨h.1, h.2.2.2.2.2.2.2.2.1⟩

/-- C5: the claim that the derived unlock-key buffer is zeroed on all
exit paths fails on the code: in KeyManager.unlock the fill(0) on the
unlock key (line 188 of manager.ts) sits after Storage.decryptKeys, so
on the routine wrong-password path, where decryptKeys throws, the
operation rethrows with the unlock-key bytes still in memory. The run
below evaluates that path: the record loads, the unlock key derives,
decryption fails, and the zeroed-on-exit flag is false. -/
theorem unlock_wrongPassword_unlockKey_not_zeroed :
    (unlock envBadDecrypt stLocked ['w'] "0xabc").unlockKeyZeroed = some false ∧
    (unlock envBadDecrypt stLocked ['w'] "0xabc").result
      = .error (.keyErr .authInvalidPassword) :=
  ⟨rfl, rfl⟩

/-- C6: updatePassword rejects a wrong old password through the unlock
path without writing anything to storage; on success it persists
exactly one record, obtained by re-encrypting the key set that was
decrypted from storage (unchanged) under the new unlock key, with the
master-key salt copied from the previously stored record, so the
master key is never re-derived. -/
theorem updatePassword_preserves_masterSalt (env : UpdateEnv) (st : KeyManagerState)
    (oldPassword newPassword : List Char) :
    (∀ wa, st.walletAddress = some wa →
      ∀ e, (unlock env.u st oldPassword wa).result = .error e →
        (updatePassword env st oldPassword newPassword).saves = [] ∧
        (updatePassword env st oldPassword newPassword).result
          = .error (wrapUpdateError e)) ∧
    (∀ wa keys existing newUk, st.walletAddress = some wa →
      (unlock env.u st oldPassword wa).result = .ok () →
      (unlock env.u st oldPassword wa).state.keys = some keys →
      env.u.loadRecord = some existing →
      env.u.deriveUnlockKey newPassword env.genUnlockSalt = .ok newUk →
      env.saveResult = .ok () →
      (updatePassword env st oldPassword newPassword).saves =
        [encryptKeysModel env.aead keys newUk wa
          ((unlock env.u st oldPassword wa).state.userIdentifier.getD "")
          ((unlock env.u st oldPassword wa).state.authMethod.getD "")
          existing.salt env.genUnlockSalt] ∧
      (encryptKeysModel env.aead keys newUk wa
          ((unlock env.u st oldPassword wa).state.userIdentifier.getD "")
          ((unlock env.u st oldPassword wa).state.authMethod.getD "")
          existing.salt env.genUnlockSalt).salt = existing.salt) := by
  constructor
  · intro wa hwa e he
    simp [updatePassword, hwa, he]
  · intro wa keys existing newUk hwa hr hk hl hd hs
    constructor
    · simp [updatePassword, hwa, hr, hk, hl, hd, hs]
    · rfl

/-- The stored record of the C6 witness, with master-key salt 9, 9. -/
def recW6 : StoredRecord :=
  { ciphertext := [1], salt := [9, 9], unlockSalt := List.replicate 16 0,
    walletAddress := "0xabc", userIdentifier := "alice", authMethod := "email" }

/-- The key bundle the C6 witness decrypts to. -/
def kW6 : DerivedKeys :=
  { masterKey := [1], storageEncryptionKey := [2], metaViewingPriv := [3],
    metaViewingPub := [4], metaSpendingPriv := [5], metaSpendingPub := [6] }

/-- The unlock environment of the C6 witness: a stored record with
master-key salt 9, 9 that decrypts successfully. -/
def envOkU : UnlockEnv :=
  { loadRecord := some recW6,
    deriveUnlockKey := fun _ _ => .ok (List.replicate 32 7),
    decryptKeys := fun _ _ => .ok kW6,
    validateKeys := fun _ => true }

/-- The update environment of the C6 witness. -/
def envUpd : UpdateEnv :=
  { u := envOkU, genUnlockSalt := List.replicate 16 1,
    aead := fun _ _ => [0], saveResult := .ok () }

/-- C6 witness: a successful password update persists exactly one
record whose master-key salt equals the previously stored salt 9, 9. -/
theorem updatePassword_preserves_masterSalt_witness :
    ∃ r, (updatePassword envUpd stLocked ['o'] ['n']).saves = [r] ∧ r.salt = [9, 9] := by
  have h := (updatePassword_preserves_masterSalt envUpd stLocked ['o'] ['n']).2
    "0xabc" kW6 recW6 (List.replicate 32 7)
    (by rfl) (by rfl) (by rfl) (by rfl) (by rfl) (by rfl)
  exact ⟨_, h.1, h.2⟩

/-- C1: for every valid key pair (the public meta keys are the private
scalars times the generator), generate followed by check on its own
outputs reports isForMe true, and the recovered spendable scalar d,
the spending private scalar plus the recomputed hash scalar, satisfies
d times G equal to the point underlying the derived address. The proof
rests on ECDH commutativity: the viewing private scalar times R equals
r times the viewing public key. -/
theorem stealth_roundTrip (n : ℕ) (g : ZMod n) (H : ZMod n → ZMod n) (A : ZMod n → ℕ)
    (r viewingPriv spendingPriv metaViewingPub metaSpendingPub : ZMod n)
    (hv : metaViewingPub = viewingPriv * g)
    (hs : metaSpendingPub = spendingPriv * g) :
    (checkStealthPayment n g H A
        (generateStealthPayment n g H A r metaViewingPub metaSpendingPub).ephemeralPub
        viewingPriv metaSpendingPub
        (generateStealthPayment n g H A r metaViewingPub metaSpendingPub).stealthAddress).isForMe
      = true ∧
    (spendingPriv +
        (checkStealthPayment n g H A
          (generateStealthPayment n g H A r metaViewingPub metaSpendingPub).ephemeralPub
          viewingPriv metaSpendingPub
          (generateStealthPayment n g H A r metaViewingPub metaSpendingPub).stealthAddress).tweak)
        * g
      = (checkStealthPayment n g H A
          (generateStealthPayment n g H A r metaViewingPub metaSpendingPub).ephemeralPub
          viewingPriv metaSpendingPub
          (generateStealthPayment n g H A r metaViewingPub metaSpendingPub).stealthAddress).derivedPub := by
  have hS : viewingPriv * (r * g) = r * metaViewingPub := by rw [hv]; ring
  constructor
  · simp only [checkStealthPayment, generateStealthPayment, hS, beq_self_eq_true]
  · simp only [checkStealthPayment, generateStealthPayment, hS, hs]
    ring

/-- C1 witness: the round trip evaluated over ZMod 7 with generator 3,
the identity as hash-to-scalar, ZMod.val as address encoding, ephemeral
scalar 2, viewing private scalar 3, and spending private scalar 4. -/
theorem stealth_roundTrip_witness :
    (checkStealthPayment 7 3 id ZMod.val
        (generateStealthPayment 7 3 id ZMod.val 2 ((3 : ZMod 7) * 3) ((4 : ZMod 7) * 3)).ephemeralPub
        3 ((4 : ZMod 7) * 3)
        (generateStealthPayment 7 3 id ZMod.val 2 ((3 : ZMod 7) * 3) ((4 : ZMod 7) * 3)).stealthAddress).isForMe
      = true ∧
    ((4 : ZMod 7) +
        (checkStealthPayment 7 3 id ZMod.val
          (generateStealthPayment 7 3 id ZMod.val 2 ((3 : ZMod 7) * 3) ((4 : ZMod 7) * 3)).ephemeralPub
          3 ((4 : ZMod 7) * 3)
          (generateStealthPayment 7 3 id ZMod.val 2 ((3 : ZMod 7) * 3) ((4 : ZMod 7) * 3)).stealthAddress).tweak)
        * 3
      = (checkStealthPayment 7 3 id ZMod.val
          (generateStealthPayment 7 3 id ZMod.val 2 ((3 : ZMod 7) * 3) ((4 : ZMod 7) * 3)).ephemeralPub
          3 ((4 : ZMod 7) * 3)
          (generateStealthPayment 7 3 id ZMod.val 2 ((3 : ZMod 7) * 3) ((4 : ZMod 7) * 3)).stealthAddress).derivedPub :=
  stealth_roundTrip 7 3 id ZMod.val 2 3 4 ((3 : ZMod 7) * 3) ((4 : ZMod 7) * 3) rfl rfl

theorem innerExtract_sound (a : Nat) (c : InnerCall) (k : Nat)
    (h : innerExtract a c = some k) :
    c.target = a ∧ ∃ s m, c.dec = some (.sendToStealth s m k) := by
  unfold innerExtract at h
  by_cases ht : c.target = a
  · rw [if_pos ht] at h
    cases hd : c.dec with
    | none => simp [hd] at h
    | some nc =>
      cases nc with
      | sendToStealth s m k2 =>
        simp only [hd] at h
        have hk : k2 = k := by simpa using h
        subst hk
        exact ⟨ht, s, m, rfl⟩
      | otherFunction nm => simp [hd] at h
  · rw [if_neg ht] at h; cases h

theorem batchExtract_sound (a : Nat) (calls : List InnerCall) (k : Nat)
    (h : batchExtract a calls = some k) :
    ∃ c ∈ calls, c.target = a ∧ ∃ s m, c.dec = some (.sendToStealth s m k) := by
  induction calls with
  | nil => simp [batchExtract] at h
  | cons c rest ih =>
    rw [batchExtract] at h
    cases hc : innerExtract a c with
    | some k2 =>
      simp only [hc] at h
      have hk : k2 = k := by simpa using h
      subst hk
      obtain ⟨ht, s, m, hd⟩ := innerExtract_sound a c k2 hc
      exact ⟨c, List.mem_cons_self c rest, ht, s, m, hd⟩
    | none =>
      simp only [hc] at h
      obtain ⟨c2, hmem, hrest⟩ := ih h
      exact ⟨c2, List.mem_cons_of_mem _ hmem, hrest⟩

theorem processOp_sound (a : Nat) (op : UserOp) (k : Nat)
    (h : processOp a op = .ok (some k)) :
    ∃ c : InnerCall, c.target = a ∧ (∃ s m, c.dec = some (.sendToStealth s m k)) ∧
      (op.singleDec = some c ∨ ∃ calls, op.batchDec = some calls ∧ c ∈ calls) := by
  unfold processOp at h
  by_cases h1 : op.callDataSelector = SELECTOR_EXECUTE_SINGLE
  · simp only [if_pos h1] at h
    cases hs : op.singleDec with
    | none => simp [hs] at h
    | some c =>
      simp only [hs] at h
      cases hi : innerExtract a c with
      | some k2 =>
        simp only [hi] at h
        have hk : k2 = k := by simpa using h
        subst hk
        obtain ⟨ht, s, m, hd⟩ := innerExtract_sound a c k2 hi
        exact ⟨c, ht, ⟨s, m, hd⟩, .inl rfl⟩
      | none =>
        simp only [hi] at h
        by_cases h2 : op.callDataSelector = SELECTOR_EXECUTE_BATCH
        · exact absurd (h1.symm.trans h2) (by decide)
        · simp [if_neg h2] at h
  · simp only [if_neg h1] at h
    by_cases h2 : op.callDataSelector = SELECTOR_EXECUTE_BATCH
    · simp only [if_pos h2] at h
      cases hb : op.batchDec with
      | none => simp [hb] at h
      | some calls =>
        simp only [hb] at h
        have hbk : batchExtract a calls = some k := by simpa using h
        obtain ⟨c, hmem, ht, s, m, hd⟩ := batchExtract_sound a calls k hbk
        exact ⟨c, ht, ⟨s, m, hd⟩, .inr ⟨calls, rfl, hmem⟩⟩
    · simp [if_neg h2] at h

theorem processOps_sound (a : Nat) (ops : List UserOp) (k : Nat)
    (h : processOps a ops = .ok (some k)) :
    ∃ op ∈ ops, processOp a op = .ok (some k) := by
  induction ops with
  | nil => simp [processOps] at h
  | cons op rest ih =>
    rw [processOps] at h
    cases hp : processOp a op with
    | error e => simp [hp] at h
    | ok r =>
      cases r with
      | some k2 =>
        simp only [hp] at h
        have hk : k2 = k := by simpa using h
        subst hk
        exact ⟨op, List.mem_cons_self op rest, hp⟩
      | none =>
        simp only [hp] at h
        obtain ⟨op2, hm, hp2⟩ := ih h
        exact ⟨op2, List.mem_cons_of_mem _ hm, hp2⟩

/-- C9: the per-log pipeline of scanPayments. First conjunct: a payload
whose raw input decodes directly as sendToStealth yields that call's
ephemeral-key argument. Second conjunct: whenever the direct decode
succeeds (whatever function it finds), the result never depends on the
meta-transaction envelope, so the envelope is consulted only when the
direct decode fails. Third conjunct: any extracted key comes either
from the direct decode or, with the direct decode failing and the
handleOps selector present, from an inner forwarded call of the
envelope whose target equals the known payment contract address and
whose data decodes to sendToStealth, in the single-forward or the
batch-forward shape. The pipeline is a total function into Option, so
a log no layer explains is the value none, a skip and never an error. -/
theorem scanPipeline_claim (ninahAddr : Nat) (p : TxPayload) :
    (∀ a m k, p.ninahDec = some (.sendToStealth a m k) →
      scanExtractEphemeral ninahAddr p = some k) ∧
    (∀ c ops, p.ninahDec = some c →
      scanExtractEphemeral ninahAddr p
        = scanExtractEphemeral ninahAddr { p with handleOpsDec := ops }) ∧
    (∀ k, scanExtractEphemeral ninahAddr p = some k →
      (∃ a m, p.ninahDec = some (.sendToStealth a m k)) ∨
      (p.ninahDec = none ∧ p.selector = SELECTOR_HANDLEOPS ∧
        ∃ ops, p.handleOpsDec = some ops ∧ ∃ op ∈ ops, ∃ c : InnerCall,
          c.target = ninahAddr ∧ (∃ s m, c.dec = some (.sendToStealth s m k)) ∧
          (op.singleDec = some c ∨ ∃ calls, op.batchDec = some calls ∧ c ∈ calls))) := by
  refine ⟨?_, ?_, ?_⟩
  · intro a m k h
    simp [scanExtractEphemeral, h]
  · intro c ops h
    cases c <;> simp [scanExtractEphemeral, h]
  · intro k h
    cases hn : p.ninahDec with
    | some nc =>
      cases nc with
      | sendToStealth a m k2 =>
        simp only [scanExtractEphemeral, hn] at h
        have hk : k2 = k := by simpa using h
        subst hk
        exact .inl ⟨a, m, rfl⟩
      | otherFunction nm => simp [scanExtractEphemeral, hn] at h
    | none =>
      simp only [scanExtractEphemeral, hn] at h
      by_cases hsel : p.selector = SELECTOR_HANDLEOPS
      · rw [if_pos hsel] at h
        cases hops : p.handleOpsDec with
        | none => simp [hops] at h
        | some ops =>
          simp only [hops] at h
          cases hpo : processOps ninahAddr ops with
          | error e => simp [hpo] at h
          | ok r =>
            simp only [hpo] at h
            subst h
            obtain ⟨op, hm, hop⟩ := processOps_sound ninahAddr ops k hpo
            obtain ⟨c, ht, hdec, hshape⟩ := processOp_sound ninahAddr op k hop
            exact .inr ⟨rfl, hsel, ops, rfl, op, hm, c, ht, hdec, hshape⟩
      · rw [if_neg hsel] at h; cases h

/-- C9 witness: the pipeline evaluated at a payload that decodes
directly as sendToStealth with ephemeral key 9. -/
theorem scanPipeline_claim_witness :
    scanExtractEphemeral 5
      { ninahDec := some (.sendToStealth 1 2 9), selector := 0, handleOpsDec := none }
      = some 9 :=
  (scanPipeline_claim 5
      { ninahDec := some (.sendToStealth 1 2 9), selector := 0, handleOpsDec := none }).1
    1 2 9 rfl

end Ninah
